import Mathlib

/-!
Verification of the DMS_Dashboard repository against its specification.

The repository's frontend sources are embedded directly.  The Python backend
(`backend/` in the project layout) is not part of the provided sources; the
engine components the specification attributes to it are modelled from the
specification text and marked `Modelled from the spec:` in their doc comments.
-/

namespace DMS

/-! ## RecentDocuments deduplication (components/dashboard/recent-documents.tsx)

Embeds the `ProcessedDocument` shape and the deduplication filter of
`fetchRecentDocuments`: a document is skipped when its `document_id` or its
combined `` `${title}_${amount}_${client}` `` key was already seen on a kept
document; otherwise it is kept and both keys are recorded. -/

structure ExtractedData where
  title : String
  client : String
  vendor : Option String
  amount : Int
  deriving DecidableEq, Repr

structure ProcessedDocument where
  document_id : String
  extracted_data : ExtractedData
  deriving DecidableEq, Repr

def key1 (d : ProcessedDocument) : String := d.document_id

def key2 (d : ProcessedDocument) : String :=
  d.extracted_data.title ++ "_" ++ toString d.extracted_data.amount ++ "_"
    ++ d.extracted_data.client

def dedupAux (seen : List String) : List ProcessedDocument → List ProcessedDocument
  | [] => []
  | d :: rest =>
    if key1 d ∈ seen ∨ key2 d ∈ seen then dedupAux seen rest
    else d :: dedupAux (key2 d :: key1 d :: seen) rest

def deduplicate (docs : List ProcessedDocument) : List ProcessedDocument :=
  dedupAux [] docs

theorem dedupAux_sublist (l : List ProcessedDocument) :
    ∀ seen, List.Sublist (dedupAux seen l) l := by
  induction l with
  | nil => intro seen; simp [dedupAux]
  | cons d rest ih =>
    intro seen
    by_cases h : key1 d ∈ seen ∨ key2 d ∈ seen
    · rw [dedupAux, if_pos h]
      exact (ih seen).cons d
    · rw [dedupAux, if_neg h]
      exact (ih _).cons₂ d

theorem keys_not_seen_of_mem_dedupAux {d : ProcessedDocument} (l : List ProcessedDocument) :
    ∀ seen, d ∈ dedupAux seen l → key1 d ∉ seen ∧ key2 d ∉ seen := by
  induction l with
  | nil => intro seen h; simp [dedupAux] at h
  | cons e rest ih =>
    intro seen h
    by_cases hc : key1 e ∈ seen ∨ key2 e ∈ seen
    · rw [dedupAux, if_pos hc] at h
      exact ih seen h
    · rw [dedupAux, if_neg hc] at h
      rcases List.mem_cons.mp h with rfl | h
      · push_neg at hc; exact hc
      · have h2 := ih _ h
        refine ⟨fun hmem => h2.1 ?_, fun hmem => h2.2 ?_⟩
        · exact List.mem_cons_of_mem _ (List.mem_cons_of_mem _ hmem)
        · exact List.mem_cons_of_mem _ (List.mem_cons_of_mem _ hmem)

theorem dedupAux_idem (l : List ProcessedDocument) :
    ∀ seen, dedupAux seen (dedupAux seen l) = dedupAux seen l := by
  induction l with
  | nil => intro seen; simp [dedupAux]
  | cons d rest ih =>
    intro seen
    by_cases hc : key1 d ∈ seen ∨ key2 d ∈ seen
    · rw [dedupAux, if_pos hc]
      exact ih seen
    · rw [dedupAux, if_neg hc]
      rw [dedupAux, if_neg hc]
      rw [ih]

/-- Distinctness of all four key combinations between two kept documents. -/
def KeysDistinct (a b : ProcessedDocument) : Prop :=
  key1 a ≠ key1 b ∧ key2 a ≠ key2 b ∧ key1 a ≠ key2 b ∧ key2 a ≠ key1 b

theorem dedupAux_pairwise (l : List ProcessedDocument) :
    ∀ seen, (dedupAux seen l).Pairwise KeysDistinct := by
  induction l with
  | nil => intro seen; simp [dedupAux]
  | cons d rest ih =>
    intro seen
    by_cases hc : key1 d ∈ seen ∨ key2 d ∈ seen
    · rw [dedupAux, if_pos hc]; exact ih seen
    · rw [dedupAux, if_neg hc]
      refine List.Pairwise.cons ?_ (ih _)
      intro b hb
      have hkeys := keys_not_seen_of_mem_dedupAux rest _ hb
      have h1 : key1 b ≠ key2 d ∧ key1 b ≠ key1 d := by
        constructor
        · intro he; exact hkeys.1 (he ▸ List.mem_cons_self _ _)
        · intro he
          exact hkeys.1 (List.mem_cons_of_mem _ (he ▸ List.mem_cons_self _ _))
      have h2 : key2 b ≠ key2 d ∧ key2 b ≠ key1 d := by
        constructor
        · intro he; exact hkeys.2 (he ▸ List.mem_cons_self _ _)
        · intro he
          exact hkeys.2 (List.mem_cons_of_mem _ (he ▸ List.mem_cons_self _ _))
      exact ⟨fun h => h1.2 h.symm, fun h => h2.1 h.symm, fun h => h2.2 h.symm,
        fun h => h1.1 h.symm⟩

/-- Incoming document that matches `dupA` exactly on title and amount but
carries a different client and a different `document_id`. -/
def dupA : ProcessedDocument :=
  ⟨"doc-1", ⟨"Supplier Invoice - Batch 9", "EMB Retail", none, 28500⟩⟩

def dupB : ProcessedDocument :=
  ⟨"doc-2", ⟨"Supplier Invoice - Batch 9", "Helios Services", none, 28500⟩⟩

/-- C1: the claim states that an exact `(title, amount)` match alone, with zero
amount tolerance and irrespective of any other field such as `client`, is judged
a duplicate when no earlier cascade step matched.  The code's combined key also
includes `client`, so `dupB` — agreeing with the kept `dupA` on title and
amount, disagreeing on client, with a fresh `document_id` — is kept rather than
judged a duplicate. -/
theorem c1_counterexample :
    dupA.extracted_data.title = dupB.extracted_data.title ∧
    dupA.extracted_data.amount = dupB.extracted_data.amount ∧
    key1 dupA ≠ key1 dupB ∧
    deduplicate [dupA, dupB] = [dupA, dupB] := by
  refine ⟨rfl, rfl, by decide, ?_⟩
  decide

/-- C1 (amended): the deduplication filter judges an incoming document a
duplicate of a kept record that it matches simultaneously on title, amount and
client (the code's combined `title_amount_client` key), with the
`document_id` check as the earlier step; agreement on `(title, amount)` alone
does not suffice. -/
theorem c1_amended (a b : ProcessedDocument)
    (ht : a.extracted_data.title = b.extracted_data.title)
    (ha : a.extracted_data.amount = b.extracted_data.amount)
    (hc : a.extracted_data.client = b.extracted_data.client) :
    deduplicate [a, b] = [a] := by
  have hk : key2 b = key2 a := by
    simp [key2, ht, ha, hc]
  simp [deduplicate, dedupAux, hk]

theorem c1_amended_witness : deduplicate [dupA, ⟨"doc-3", dupA.extracted_data⟩] = [dupA] :=
  c1_amended dupA ⟨"doc-3", dupA.extracted_data⟩ rfl rfl rfl

/-- C2: deduplication returns a sublist of its input (so it never creates a new
record), keeps at most one record per identity key (all kept documents have
pairwise distinct `document_id` and combined keys, in every combination), and
is idempotent; in particular a second copy of an already-kept document is
dropped, never stored twice. -/
theorem c2_dedup_sublist_idem (l : List ProcessedDocument) :
    List.Sublist (deduplicate l) l ∧
    (deduplicate l).Pairwise KeysDistinct ∧
    deduplicate (deduplicate l) = deduplicate l :=
  ⟨dedupAux_sublist l [], dedupAux_pairwise l [], dedupAux_idem l []⟩

/-! ## Sample-data store (lib/data/sample-data.ts)

The module-level `documents`, `exceptions` and `alerts` constants together with
the accessor functions `listDocuments`, `getDocumentById`, `listExceptions` and
`listAlerts`.  String-literal union types are embedded as inductives. -/

inductive DocumentCategory where
  | clientPO
  | vendorPO
  | clientInvoice
  | vendorInvoice
  | serviceAgreement
  deriving DecidableEq, Repr

inductive DocStatus where
  | draft
  | approved
  | pendingReview
  | flagged
  deriving DecidableEq, Repr

inductive AlertLevel where
  | info
  | warning
  | critical
  deriving DecidableEq, Repr

inductive Severity where
  | low
  | medium
  | high
  deriving DecidableEq, Repr

structure DocumentRecord where
  id : String
  title : String
  category : DocumentCategory
  client : String
  vendor : Option String := none
  amount : ℚ
  currency : String
  status : DocStatus
  createdAt : String
  dueDate : Option String := none
  confidence : ℚ
  linkedTo : Option String := none
  pdfUrl : Option String := none
  deriving DecidableEq, Repr

structure ExceptionRecord where
  id : String
  documentId : String
  issue : String
  severity : Severity
  owner : String
  raisedAt : String
  deriving DecidableEq, Repr

structure AlertRecord where
  id : String
  title : String
  description : String
  level : AlertLevel
  timestamp : String
  deriving DecidableEq, Repr

def po20240001 : DocumentRecord :=
  { id := "PO-2024-001", title := "EMB Retail Supply PO",
    category := DocumentCategory.clientPO, client := "EMB Retail",
    amount := 150000, currency := "USD", status := DocStatus.approved,
    createdAt := "2024-03-02T09:30:00Z", dueDate := some "2024-12-31T00:00:00Z",
    confidence := 98/100, linkedTo := some "AGR-2024-002",
    pdfUrl := some "/docs/sample-po.pdf" }

def inv2024032 : DocumentRecord :=
  { id := "INV-2024-032", title := "Supplier Invoice - Batch #32",
    category := DocumentCategory.vendorInvoice, client := "EMB Retail",
    vendor := some "Northwind Components", amount := 28500, currency := "USD",
    status := DocStatus.pendingReview, createdAt := "2024-03-11T14:47:00Z",
    confidence := 91/100, linkedTo := some "PO-2024-001",
    pdfUrl := some "/docs/sample-invoice.pdf" }

def agr2024002 : DocumentRecord :=
  { id := "AGR-2024-002", title := "Service Agreement - Field Support",
    category := DocumentCategory.serviceAgreement, client := "EMB Logistics",
    vendor := some "Helios Services", amount := 56000, currency := "USD",
    status := DocStatus.approved, createdAt := "2024-01-17T10:15:00Z",
    dueDate := some "2025-01-17T00:00:00Z", confidence := 95/100,
    pdfUrl := some "/docs/sample-agreement.pdf" }

def inv2024045 : DocumentRecord :=
  { id := "INV-2024-045", title := "Client Invoice - Retail Expansion",
    category := DocumentCategory.clientInvoice, client := "EMB Retail",
    amount := 72000, currency := "USD", status := DocStatus.flagged,
    createdAt := "2024-03-15T08:12:00Z", confidence := 76/100,
    linkedTo := some "PO-2023-014", pdfUrl := some "/docs/sample-invoice.pdf" }

def po2023014 : DocumentRecord :=
  { id := "PO-2023-014", title := "Vendor Supply PO",
    category := DocumentCategory.vendorPO, client := "EMB Retail",
    vendor := some "Helios Services", amount := 90000, currency := "USD",
    status := DocStatus.approved, createdAt := "2023-11-21T12:00:00Z",
    confidence := 99/100, pdfUrl := some "/docs/sample-po.pdf" }

def documents : List DocumentRecord :=
  [po20240001, inv2024032, agr2024002, inv2024045, po2023014]

def exceptions : List ExceptionRecord :=
  [{ id := "EX-220", documentId := "INV-2024-045",
     issue := "Invoice exceeds PO cap by 8%", severity := Severity.high,
     owner := "Finance Ops", raisedAt := "2024-03-16T09:04:00Z" },
   { id := "EX-221", documentId := "INV-2024-032",
     issue := "Missing tax registration ID", severity := Severity.medium,
     owner := "Compliance", raisedAt := "2024-03-15T15:10:00Z" },
   { id := "EX-224", documentId := "PO-2024-001",
     issue := "Vendor address mismatch against CRM record",
     severity := Severity.low, owner := "Finance Ops",
     raisedAt := "2024-03-13T11:22:00Z" }]

def alerts : List AlertRecord :=
  [{ id := "AL-400", title := "PO Cap Utilization at 85%",
     description := "Client PO PO-2024-001 is close to its spending limit. Review pending invoices.",
     level := AlertLevel.warning, timestamp := "2024-03-16T11:32:00Z" },
   { id := "AL-404", title := "Service Agreement expiring in 30 days",
     description := "Agreement AGR-2024-002 for Helios Services expires soon. Consider renewal.",
     level := AlertLevel.info, timestamp := "2024-03-15T06:18:00Z" },
   { id := "AL-409", title := "Unlinked Vendor Invoice",
     description := "Vendor invoice INV-2024-051 could not be linked automatically.",
     level := AlertLevel.critical, timestamp := "2024-03-12T20:02:00Z" }]

def listDocuments : List DocumentRecord := documents

def getDocumentById (id : String) : Option DocumentRecord :=
  documents.find? (fun doc => doc.id == id)

def listExceptions : List ExceptionRecord := exceptions

/-- The in-memory store the module constants form; `listAlerts` reads it and
leaves it untouched, which the explicit state-passing form makes visible. -/
structure Store where
  documents : List DocumentRecord
  exceptions : List ExceptionRecord
  alerts : List AlertRecord

def store : Store := ⟨documents, exceptions, alerts⟩

def listAlerts (s : Store) : List AlertRecord × Store := (s.alerts, s)

/-- C3: `listAlerts` never mutates the store, so a second evaluation on the
state left behind by the first returns the identical alert list (same ids, same
fields); and the repository's alert store holds no duplicate entries, neither
as whole records nor by id. -/
theorem c3_alert_evaluation_idempotent :
    (∀ s : Store, (listAlerts s).2 = s) ∧
    (∀ s : Store, (listAlerts (listAlerts s).2).1 = (listAlerts s).1) ∧
    (listAlerts store).1.Nodup ∧
    ((listAlerts store).1.map (fun a => a.id)).Nodup := by
  refine ⟨fun s => rfl, fun s => rfl, ?_, ?_⟩ <;> decide

/-! ## Link graph over the stored documents (C4)

Following a document's `linkedTo` reference through `getDocumentById`. -/

def next (id : String) : Option String :=
  (getDocumentById id).bind (fun d => d.linkedTo)

def iterNext : Nat → String → Option String
  | 0, x => some x
  | Nat.succ n, x => (next x).bind (iterNext n)

theorem iterNext_add (a b : Nat) :
    ∀ x, iterNext (a + b) x = (iterNext a x).bind (iterNext b) := by
  induction a with
  | zero => intro x; simp [iterNext]
  | succ n ih =>
    intro x
    have hs : n + 1 + b = (n + b) + 1 := by omega
    rw [hs, iterNext, iterNext]
    cases next x with
    | none => simp
    | some y => simp [ih y]

theorem iterNext_cycle {k : Nat} {x : String} (h : iterNext k x = some x) :
    ∀ m, iterNext (m * k) x = some x := by
  intro m
  induction m with
  | zero => simp [iterNext]
  | succ n ih =>
    have hm : (n + 1) * k = n * k + k := by ring
    rw [hm, iterNext_add, ih]
    simpa using h

theorem iterNext_none_stable {n : Nat} {x : String} (h : iterNext n x = none) :
    ∀ j, iterNext (n + j) x = none := by
  intro j
  rw [iterNext_add, h]
  rfl

/-- If three hops from `x` fall off the link graph, then `x` lies on no cycle. -/
theorem no_cycle_of_iterNext_three {x : String} (h3 : iterNext 3 x = none) :
    ∀ k, 0 < k → iterNext k x ≠ some x := by
  intro k hk hcyc
  have hpump : iterNext (3 * k) x = some x := iterNext_cycle hcyc 3
  have hsplit : 3 * k = 3 + (3 * k - 3) := by omega
  have hnone : iterNext (3 * k) x = none := by
    rw [hsplit]
    exact iterNext_none_stable h3 _
  rw [hpump] at hnone
  exact Option.noConfusion hnone

/-- C4 counterexample: the stored Client PO `PO-2024-001` itself carries a
link, and its target `AGR-2024-002` is a Service Agreement, so the claim that
invoice-to-PO edges are the only directed edges and that no PO record carries a
link fails on the stored collection. -/
theorem c4_counterexample :
    po20240001 ∈ documents ∧
    po20240001.category = DocumentCategory.clientPO ∧
    po20240001.linkedTo = some "AGR-2024-002" ∧
    (getDocumentById "AGR-2024-002").map (fun d => d.category) =
      some DocumentCategory.serviceAgreement := by
  refine ⟨by simp [documents], rfl, rfl, by decide⟩

/-- C4 (amended): in the stored collection every record links to at most one
other document, every `linkedTo` target is the id of a stored document, and the
link graph is acyclic; however the edge set is not restricted to invoice-to-PO
edges: each linked record is either an invoice pointing at a stored PO or the
Client PO `PO-2024-001` pointing at the Service Agreement `AGR-2024-002`. -/
theorem c4_link_graph_amended :
    (∀ d, d ∈ documents → d.linkedTo.toList.length ≤ 1) ∧
    (∀ d, d ∈ documents → ∀ t, d.linkedTo = some t →
      ∃ e, e ∈ documents ∧ e.id = t) ∧
    (∀ d, d ∈ documents → ∀ k, 0 < k → iterNext k d.id ≠ some d.id) ∧
    (∀ d, d ∈ documents → ∀ t, d.linkedTo = some t →
      ((d.category = DocumentCategory.clientInvoice ∨
        d.category = DocumentCategory.vendorInvoice) ∧
        ∃ e, e ∈ documents ∧ e.id = t ∧
          (e.category = DocumentCategory.clientPO ∨
           e.category = DocumentCategory.vendorPO)) ∨
      (d.id = "PO-2024-001" ∧ t = "AGR-2024-002")) := by
  refine ⟨by decide, by decide, ?_, by decide⟩
  have hterm : ∀ d, d ∈ documents → iterNext 3 d.id = none := by decide
  exact fun d hd => no_cycle_of_iterNext_three (hterm d hd)

theorem c4_witness :
    inv2024032 ∈ documents ∧ iterNext 1 inv2024032.id ≠ some inv2024032.id :=
  ⟨by simp [documents], c4_link_graph_amended.2.2.1 inv2024032 (by simp [documents]) 1 (by decide)⟩

/-! ## Document detail route (app/api/documents/[id]/route.ts over sample data)

`GET` looks the document up by id, answers 404 `"Document not found"` when it
is absent, and otherwise returns the document unchanged together with the
exceptions whose `documentId` equals the document id and the alerts whose
description mentions the document id. -/

def listContains (needle : List Char) : List Char → Bool
  | [] => needle.isEmpty
  | c :: rest => needle.isPrefixOf (c :: rest) || listContains needle rest

/-- JavaScript `s.includes(sub)`. -/
def strIncludes (s sub : String) : Bool := listContains sub.data s.data

inductive DocumentResponse where
  | notFound
  | ok (document : DocumentRecord) (relatedExceptions : List ExceptionRecord)
      (relatedAlerts : List AlertRecord)

def getDocumentRoute (id : String) : DocumentResponse :=
  match getDocumentById id with
  | none => DocumentResponse.notFound
  | some document =>
      DocumentResponse.ok document
        (listExceptions.filter (fun item => item.documentId == document.id))
        ((listAlerts store).1.filter
          (fun alert => strIncludes alert.description document.id))

theorem getDocumentById_mem {id : String} {d : DocumentRecord}
    (h : getDocumentById id = some d) : d ∈ documents ∧ d.id = id := by
  refine ⟨List.mem_of_find?_eq_some h, ?_⟩
  have hp := List.find?_some h
  simpa using hp

theorem getDocumentById_of_mem :
    ∀ d, d ∈ documents → getDocumentById d.id = some d := by
  intro d hd
  simp only [documents, List.mem_cons, List.not_mem_nil, or_false] at hd
  rcases hd with rfl | rfl | rfl | rfl | rfl <;> rfl

/-- C9: document ids in the store are unique; looking an id up fails exactly
when no stored document carries that id (the 404 branch), and otherwise
returns the unique stored record with that id, unmodified, alongside exactly
the exception records whose `documentId` equals the document's id. -/
theorem c9_document_lookup :
    (documents.map (fun d => d.id)).Nodup ∧
    (∀ id, getDocumentRoute id = DocumentResponse.notFound ↔
      ∀ d, d ∈ documents → d.id ≠ id) ∧
    (∀ d, d ∈ documents → getDocumentById d.id = some d) ∧
    (∀ id d, getDocumentById id = some d → d ∈ documents ∧ d.id = id ∧
      getDocumentRoute id = DocumentResponse.ok d
        (exceptions.filter (fun item => item.documentId == d.id))
        (alerts.filter (fun alert => strIncludes alert.description d.id))) ∧
    (∀ id d exs als, getDocumentRoute id = DocumentResponse.ok d exs als →
      ∀ e, e ∈ exs ↔ e ∈ exceptions ∧ e.documentId = d.id) := by
  refine ⟨by decide, ?_, getDocumentById_of_mem, ?_, ?_⟩
  · intro id
    constructor
    · intro h d hd hid
      have hsome := getDocumentById_of_mem d hd
      rw [hid] at hsome
      rw [getDocumentRoute, hsome] at h
      exact DocumentResponse.noConfusion h
    · intro h
      have hnone : getDocumentById id = none := by
        rw [getDocumentById, List.find?_eq_none]
        intro d hd
        simpa using h d hd
      rw [getDocumentRoute, hnone]
  · intro id d h
    obtain ⟨hmem, hid⟩ := getDocumentById_mem h
    refine ⟨hmem, hid, ?_⟩
    rw [getDocumentRoute, h]
    rfl
  · intro id d exs als h e
    rcases hdoc : getDocumentById id with _ | doc
    · rw [getDocumentRoute, hdoc] at h
      exact DocumentResponse.noConfusion h
    · rw [getDocumentRoute, hdoc] at h
      obtain ⟨hd, hexs, -⟩ := DocumentResponse.ok.inj h
      subst hd
      rw [← hexs, listExceptions, List.mem_filter]
      simp

theorem c9_witness : getDocumentRoute "INV-0000-000" = DocumentResponse.notFound :=
  (c9_document_lookup.2.1 "INV-0000-000").mpr (by decide)

/-! ## Chat route (app/api/chat/route.ts)

`POST` trims the message, answers 400 with a fixed fallback for an empty
message, and otherwise picks the reply of the first case-insensitive pattern
that matches, in the fixed source order; the request's `context` array is never
read. -/

inductive ChatRole where
  | user
  | assistant
  deriving DecidableEq, Repr

structure ChatTurn where
  role : ChatRole
  content : String
  deriving DecidableEq, Repr

structure ChatRequestBody where
  message : String
  context : Option (List ChatTurn) := none

def knowledgeBase : String :=
  "EMB Global focuses on an AI-powered DMS that ingests purchase orders, invoices, and service agreements.\nThe system automates classification, OCR extraction, validation, linking, and alerts, and provides dashboards plus an upcoming conversational assistant."

def chatFallback : String :=
  "I didn\x27t catch a question. Ask me about purchase orders, invoices, or agreements."

def replyPO : String :=
  "Purchase orders are tracked with cap, utilization, vendor, and expiry metadata. You can review PO balances on the dashboard or open the document detail page for more context."

def replyInvoice : String :=
  "Invoices are matched against their linked PO. Validation ensures amounts stay within the PO cap and alerts trigger if mismatches appear."

def replyAgreement : String :=
  "Service agreements store vendor relationships, expiry dates, and linked PO versions. The system raises alerts 30 days before expiration."

def replyAlert : String :=
  "Alerts fire when PO utilization crosses thresholds, invoices fail validation, or agreements near expiration. Manage rules in the Alerts view."

def replyChatbot : String :=
  "I\x27m the DMS assistant. Ask about PO balances, upcoming expiries, or document summaries and I\x27ll point you to the right dashboard modules."

def replyKnowledge : String := "Here\x27s what I know: " ++ knowledgeBase

def lowerChars (s : String) : List Char := s.data.map Char.toLower

/-- Case-insensitive test of a literal pattern, JavaScript `/pat/i.test(s)`. -/
def testCI (pat : String) (s : String) : Bool :=
  listContains (lowerChars pat) (lowerChars s)

def chatReplyFor (userMessage : String) : String :=
  if testCI "po" userMessage || testCI "purchase order" userMessage then replyPO
  else if testCI "invoice" userMessage then replyInvoice
  else if testCI "agreement" userMessage || testCI "contract" userMessage then
    replyAgreement
  else if testCI "alert" userMessage || testCI "notification" userMessage then
    replyAlert
  else if testCI "chatbot" userMessage || testCI "assistant" userMessage then
    replyChatbot
  else replyKnowledge

/-- JavaScript `String.prototype.trim`: whitespace stripped from both ends,
modelled over the character list (Lean's built-in `String.trim` walks byte
positions by well-founded recursion, which the kernel cannot evaluate). -/
def jsTrim (s : String) : String :=
  ⟨((s.data.dropWhile Char.isWhitespace).reverse.dropWhile Char.isWhitespace).reverse⟩

def chatPOST (body : ChatRequestBody) : Nat × String :=
  let userMessage := jsTrim body.message
  if userMessage = "" then (400, chatFallback)
  else (200, chatReplyFor userMessage)

/-- The pattern cascade of the route as an ordered rule list. -/
def chatRules : List ((String → Bool) × String) :=
  [(fun m => testCI "po" m || testCI "purchase order" m, replyPO),
   (fun m => testCI "invoice" m, replyInvoice),
   (fun m => testCI "agreement" m || testCI "contract" m, replyAgreement),
   (fun m => testCI "alert" m || testCI "notification" m, replyAlert),
   (fun m => testCI "chatbot" m || testCI "assistant" m, replyChatbot)]

def firstRuleReply (m : String) : String :=
  match chatRules.find? (fun r => r.1 m) with
  | some r => r.2
  | none => replyKnowledge

theorem chatReplyFor_eq_firstRuleReply (m : String) :
    chatReplyFor m = firstRuleReply m := by
  rw [chatReplyFor, firstRuleReply, chatRules]
  cases h1 : (testCI "po" m || testCI "purchase order" m) <;>
  cases h2 : testCI "invoice" m <;>
  cases h3 : (testCI "agreement" m || testCI "contract" m) <;>
  cases h4 : (testCI "alert" m || testCI "notification" m) <;>
  cases h5 : (testCI "chatbot" m || testCI "assistant" m) <;>
    simp [List.find?, h1, h2, h3, h4, h5]

/-- C10: the chat reply is a function of the trimmed message alone — an empty
trimmed message receives status 400 with the fixed fallback, a non-empty one
receives the reply of the first matching rule of the fixed cascade (with the
knowledge-base reply as final fallback), and two requests whose messages agree
after trimming receive identical responses whatever their `context` arrays
hold. -/
theorem c10_chat_reply :
    (∀ body : ChatRequestBody, jsTrim body.message = "" →
      chatPOST body = (400, chatFallback)) ∧
    (∀ body : ChatRequestBody, jsTrim body.message ≠ "" →
      chatPOST body = (200, firstRuleReply (jsTrim body.message))) ∧
    (∀ b1 b2 : ChatRequestBody, jsTrim b1.message = jsTrim b2.message →
      chatPOST b1 = chatPOST b2) := by
  refine ⟨?_, ?_, ?_⟩
  · intro b h
    simp [chatPOST, h]
  · intro b h
    simp [chatPOST, h, chatReplyFor_eq_firstRuleReply]
  · intro b1 b2 h
    simp [chatPOST, h]

theorem c10_witness :
    chatPOST ⟨" ", some [⟨ChatRole.user, "earlier context"⟩]⟩ = (400, chatFallback) ∧
    chatPOST ⟨"invoice status", some [⟨ChatRole.user, "unrelated"⟩]⟩ =
      chatPOST ⟨" invoice status ", none⟩ :=
  ⟨c10_chat_reply.1 _ (by decide), c10_chat_reply.2.2 _ _ (by decide)⟩

namespace Core

/-! ## The document/alert engine (spec sections 3-4.5)

The engine lives in the repository's Python backend (`backend/app/services`),
which is not among the provided sources — only its REST callers are.  The
definitions below are therefore modelled from the specification text. -/

/-- Modelled from the spec: section 4.5's PO-utilization rule, mapping the
utilization ratio to an alert level. -/
def poUtilizationAlert (ratio : ℚ) : Option AlertLevel :=
  if 95/100 ≤ ratio then some AlertLevel.critical
  else if 80/100 ≤ ratio then some AlertLevel.warning
  else none

/-- Modelled from the spec: each re-evaluation replaces whatever alert state
the previous evaluation left for the rule, retracting it when the rule now
yields nothing. -/
def evaluateUtilization (prev : Option AlertLevel) (ratio : ℚ) :
    Option AlertLevel :=
  match prev with
  | _ => poUtilizationAlert ratio

/-- C5: the PO-utilization rule maps ratio 0.7999 to no alert (retracting any
existing one), every ratio in [0.80, 0.95) to a warning, 0.9499 in particular
staying a warning, and every ratio at or above 0.95 to a critical alert. -/
theorem c5_utilization_thresholds :
    poUtilizationAlert (7999/10000) = none ∧
    (∀ prev, evaluateUtilization prev (7999/10000) = none) ∧
    (∀ r : ℚ, 80/100 ≤ r → r < 95/100 →
      poUtilizationAlert r = some AlertLevel.warning) ∧
    poUtilizationAlert (9499/10000) = some AlertLevel.warning ∧
    (∀ r : ℚ, 95/100 ≤ r → poUtilizationAlert r = some AlertLevel.critical) := by
  have hw : ∀ r : ℚ, 80/100 ≤ r → r < 95/100 →
      poUtilizationAlert r = some AlertLevel.warning := by
    intro r h1 h2
    rw [poUtilizationAlert, if_neg (not_le.mpr h2), if_pos h1]
  refine ⟨?_, ?_, hw, ?_, ?_⟩
  · rw [poUtilizationAlert, if_neg (by norm_num), if_neg (by norm_num)]
  · intro prev
    rw [evaluateUtilization]
    rw [poUtilizationAlert, if_neg (by norm_num), if_neg (by norm_num)]
  · exact hw _ (by norm_num) (by norm_num)
  · intro r h1
    rw [poUtilizationAlert, if_pos h1]

theorem c5_witness :
    poUtilizationAlert (80/100) = some AlertLevel.warning ∧
    poUtilizationAlert (95/100) = some AlertLevel.critical :=
  ⟨c5_utilization_thresholds.2.2.1 (80/100) (by norm_num) (by norm_num),
   c5_utilization_thresholds.2.2.2.2 (95/100) (by norm_num)⟩

/-- Modelled from the spec: the core DocumentRecord of section 3 (the fields
the tracker and linker read); timestamps are integer day numbers. -/
structure Doc where
  id : String
  category : DocumentCategory
  title : String
  client : String
  vendor : Option String := none
  amount : ℚ
  currency : String := "USD"
  createdAt : ℤ := 0
  dueDate : Option ℤ := none
  referenceNumber : Option String := none
  linkedTo : Option String := none
  deriving DecidableEq, Repr

def isInvoice (d : Doc) : Bool :=
  match d.category with
  | DocumentCategory.clientInvoice => true
  | DocumentCategory.vendorInvoice => true
  | _ => false

/-- The amount a document contributes to the consumed total of PO `poId`:
its amount when it is an invoice currently linked there, zero otherwise. -/
def invoiceContribution (d : Doc) (poId : String) : ℚ :=
  if isInvoice d = true ∧ d.linkedTo = some poId then d.amount else 0

/-- Recomputed consumed total of a PO: the sum of the amounts of the invoices
whose `linkedTo` equals the PO's id. -/
def consumed (docs : List Doc) (poId : String) : ℚ :=
  (docs.map (fun d => invoiceContribution d poId)).sum

inductive Op where
  | link (docId targetId : String)
  | unlink (docId : String)
  | delete (docId : String)

/-- Tracker state: the stored documents plus the per-PO consumed totals the
UtilizationTracker maintains incrementally. -/
structure TrackerState where
  docs : List Doc
  util : String → ℚ

def findDoc (docId : String) : List Doc → Option Doc
  | [] => none
  | d :: rest => if d.id = docId then some d else findDoc docId rest

def setLinked (docId : String) (t : Option String) : List Doc → List Doc
  | [] => []
  | d :: rest =>
    if d.id = docId then { d with linkedTo := t } :: rest
    else d :: setLinked docId t rest

def removeDoc (docId : String) : List Doc → List Doc
  | [] => []
  | d :: rest => if d.id = docId then rest else d :: removeDoc docId rest

def adjust (util : String → ℚ) (p : String) (delta : ℚ) : String → ℚ :=
  fun q => if p = q then util q + delta else util q

/-- Modelled from the spec: section 4.4's incremental consumed update when a
document's link moves to `t` — subtract the amount at the old target, add it
at the new one, invoices only. -/
def utilDelta (d : Doc) (t : Option String) (util : String → ℚ) : String → ℚ :=
  if isInvoice d then
    let u1 := match d.linkedTo with
      | some p0 => adjust util p0 (-d.amount)
      | none => util
    match t with
    | some p1 => adjust u1 p1 d.amount
    | none => u1
  else util

/-- Modelled from the spec: the three link-changing transactions of sections
4.4 and 5; a transaction whose subject document is missing no-ops. -/
def applyOp (s : TrackerState) : Op → TrackerState
  | Op.link docId targetId =>
    match findDoc docId s.docs with
    | none => s
    | some d =>
      { docs := setLinked docId (some targetId) s.docs,
        util := utilDelta d (some targetId) s.util }
  | Op.unlink docId =>
    match findDoc docId s.docs with
    | none => s
    | some d =>
      { docs := setLinked docId none s.docs,
        util := utilDelta d none s.util }
  | Op.delete docId =>
    match findDoc docId s.docs with
    | none => s
    | some d =>
      { docs := removeDoc docId s.docs,
        util := utilDelta d none s.util }

def run (s : TrackerState) (ops : List Op) : TrackerState :=
  ops.foldl applyOp s

theorem isInvoice_withLinked (d : Doc) (t : Option String) :
    isInvoice { d with linkedTo := t } = isInvoice d := rfl

theorem linkedTo_withLinked (d : Doc) (t : Option String) :
    ({ d with linkedTo := t } : Doc).linkedTo = t := rfl

theorem amount_withLinked (d : Doc) (t : Option String) :
    ({ d with linkedTo := t } : Doc).amount = d.amount := rfl

theorem consumed_setLinked {docId : String} {d : Doc} (t : Option String) :
    ∀ docs, findDoc docId docs = some d → ∀ p,
      consumed (setLinked docId t docs) p =
        consumed docs p - invoiceContribution d p
          + invoiceContribution { d with linkedTo := t } p := by
  intro docs
  induction docs with
  | nil => intro h; exact Option.noConfusion h
  | cons e rest ih =>
    intro h p
    by_cases he : e.id = docId
    · rw [findDoc, if_pos he] at h
      obtain rfl := Option.some.inj h
      rw [setLinked, if_pos he]
      simp only [consumed, List.map_cons, List.sum_cons]
      ring
    · rw [findDoc, if_neg he] at h
      rw [setLinked, if_neg he]
      simp only [consumed, List.map_cons, List.sum_cons]
      have hr := ih h p
      simp only [consumed] at hr
      rw [hr]
      ring

theorem consumed_removeDoc {docId : String} {d : Doc} :
    ∀ docs, findDoc docId docs = some d → ∀ p,
      consumed (removeDoc docId docs) p =
        consumed docs p - invoiceContribution d p := by
  intro docs
  induction docs with
  | nil => intro h; exact Option.noConfusion h
  | cons e rest ih =>
    intro h p
    by_cases he : e.id = docId
    · rw [findDoc, if_pos he] at h
      obtain rfl := Option.some.inj h
      rw [removeDoc, if_pos he]
      simp only [consumed, List.map_cons, List.sum_cons]
      ring
    · rw [findDoc, if_neg he] at h
      rw [removeDoc, if_neg he]
      simp only [consumed, List.map_cons, List.sum_cons]
      have hr := ih h p
      simp only [consumed] at hr
      rw [hr]
      ring

theorem utilDelta_apply (d : Doc) (t : Option String) (util : String → ℚ)
    (p : String) :
    utilDelta d t util p =
      util p - invoiceContribution d p
        + invoiceContribution { d with linkedTo := t } p := by
  by_cases hi : isInvoice d = true
  · rw [utilDelta, if_pos hi]
    cases hl : d.linkedTo with
    | none =>
      cases t with
      | none => simp [invoiceContribution, hi, hl]
      | some p1 =>
        simp only [invoiceContribution, adjust, isInvoice_withLinked,
          linkedTo_withLinked, amount_withLinked, hi, hl, true_and,
          Option.some.injEq]
        simp only [reduceCtorEq, false_and, if_false, and_false]
        split_ifs <;> ring
    | some p0 =>
      cases t with
      | none =>
        simp only [invoiceContribution, adjust, isInvoice_withLinked,
          linkedTo_withLinked, amount_withLinked, hi, hl, true_and,
          Option.some.injEq]
        simp only [reduceCtorEq, false_and, if_false, and_false]
        split_ifs <;> ring
      | some p1 =>
        simp only [invoiceContribution, adjust, isInvoice_withLinked,
          linkedTo_withLinked, amount_withLinked, hi, hl, true_and,
          Option.some.injEq]
        split_ifs <;> ring
  · rw [utilDelta, if_neg hi]
    simp [invoiceContribution, isInvoice_withLinked, hi]

theorem applyOp_conserves {s : TrackerState}
    (h : ∀ p, s.util p = consumed s.docs p) (op : Op) :
    ∀ p, (applyOp s op).util p = consumed (applyOp s op).docs p := by
  cases op with
  | link docId targetId =>
    simp only [applyOp]
    cases hf : findDoc docId s.docs with
    | none => simpa using h
    | some d =>
      intro p
      simp only
      rw [utilDelta_apply, h p, consumed_setLinked (some targetId) s.docs hf p]
  | unlink docId =>
    simp only [applyOp]
    cases hf : findDoc docId s.docs with
    | none => simpa using h
    | some d =>
      intro p
      simp only
      rw [utilDelta_apply, h p, consumed_setLinked none s.docs hf p]
  | delete docId =>
    simp only [applyOp]
    cases hf : findDoc docId s.docs with
    | none => simpa using h
    | some d =>
      intro p
      simp only
      rw [utilDelta_apply, h p, consumed_removeDoc s.docs hf p]
      simp [invoiceContribution]

/-- C6: after any sequence of link, unlink and delete transactions, a tracker
whose per-PO consumed totals initially agree with the recomputed sums still
agrees with them: for every PO id, `util` equals exactly the sum of the
amounts of the invoices whose `linkedTo` is that id — the figure never
drifts from the stored documents. -/
theorem c6_utilization_conservation (ops : List Op) (s : TrackerState)
    (h : ∀ p, s.util p = consumed s.docs p) :
    ∀ p, (run s ops).util p = consumed (run s ops).docs p := by
  induction ops generalizing s with
  | nil => exact h
  | cons op rest ih =>
    simp only [run, List.foldl_cons]
    exact ih (applyOp s op) (applyOp_conserves h op)

def tracker0 : TrackerState :=
  ⟨[{ id := "PO-1", category := DocumentCategory.clientPO, title := "Supply PO",
      client := "ACME", amount := 1000 },
    { id := "INV-1", category := DocumentCategory.clientInvoice,
      title := "Invoice 1", client := "ACME", amount := 400 }],
   fun _ => 0⟩

theorem c6_witness :
    (run tracker0 [Op.link "INV-1" "PO-1", Op.unlink "INV-1"]).util "PO-1" =
      consumed (run tracker0 [Op.link "INV-1" "PO-1", Op.unlink "INV-1"]).docs
        "PO-1" :=
  c6_utilization_conservation [Op.link "INV-1" "PO-1", Op.unlink "INV-1"]
    tracker0 (by intro p; simp [tracker0, consumed, invoiceContribution, isInvoice])
    "PO-1"

/-! ### Linker (spec section 4.3) -/

structure LinkResult where
  targetId : String
  strategy : Nat
  confidence : ℚ
  deriving DecidableEq, Repr

/-- Modelled from the spec: strategy 1 — exact reference-number match,
confidence 0.99. -/
def strategy1 (doc : Doc) (candidates : List Doc) : Option LinkResult :=
  match doc.referenceNumber with
  | none => none
  | some rn =>
    (candidates.find? (fun c => c.referenceNumber == some rn)).map
      (fun c => ⟨c.id, 1, 99/100⟩)

/-- Modelled from the spec: strategy 2 — the reference number appears verbatim
inside the candidate's title, confidence 0.9. -/
def strategy2 (doc : Doc) (candidates : List Doc) : Option LinkResult :=
  match doc.referenceNumber with
  | none => none
  | some rn =>
    (candidates.find? (fun c => strIncludes c.title rn)).map
      (fun c => ⟨c.id, 2, 9/10⟩)

/-- Modelled from the spec: strategy 3 — same client and vendor with dates
within a 45-day window; confidence falls with date distance and is floored at
0.6 (the spec fixes the floor and the window, not the exact scaling). -/
def strategy3 (doc : Doc) (candidates : List Doc) : Option LinkResult :=
  (candidates.find? (fun c => decide (doc.client = c.client ∧
      doc.vendor = c.vendor ∧ |doc.createdAt - c.createdAt| ≤ 45))).map
    (fun c => ⟨c.id, 3,
      max (6/10) (1 - (|doc.createdAt - c.createdAt| : ℚ) / 100)⟩)

def remainingCapacity (docs : List Doc) (c : Doc) : ℚ :=
  c.amount - consumed docs c.id

/-- Modelled from the spec: strategy 4 — same client and amount within 5%
relative tolerance of the candidate's remaining capacity, confidence 0.55. -/
def strategy4 (docs : List Doc) (doc : Doc) (candidates : List Doc) :
    Option LinkResult :=
  (candidates.find? (fun c => decide (doc.client = c.client ∧
      |doc.amount - remainingCapacity docs c| * 20 ≤
        |remainingCapacity docs c|))).map
    (fun c => ⟨c.id, 4, 55/100⟩)

/-- Modelled from the spec: the Linker's strategy cascade, evaluated in fixed
order; the first strategy that clears its own threshold is accepted and no
further strategy is tried. -/
def link (docs : List Doc) (doc : Doc) (candidates : List Doc) :
    Option LinkResult :=
  match strategy1 doc candidates with
  | some r => some r
  | none =>
    match strategy2 doc candidates with
    | some r => some r
    | none =>
      match strategy3 doc candidates with
      | some r => some r
      | none => strategy4 docs doc candidates

/-- C7: when strategy 1 fails and strategy 2 matches, the Linker returns
strategy 2's target with confidence 0.9 and strategy tag 2 — even when
strategy 4 would also match — and it does so for every utilization state
strategy 4 might consult, so strategy 4 is never reached. -/
theorem c7_cascade_precedence (docs : List Doc) (doc : Doc)
    (candidates : List Doc) (r : LinkResult)
    (h1 : strategy1 doc candidates = none)
    (h2 : strategy2 doc candidates = some r)
    (h4 : ∃ r4, strategy4 docs doc candidates = some r4) :
    link docs doc candidates = some r ∧ r.confidence = 9/10 ∧
      r.strategy = 2 ∧
      (∀ docs2, link docs2 doc candidates = some r) := by
  have hshape : r.confidence = 9/10 ∧ r.strategy = 2 := by
    rw [strategy2] at h2
    cases hrn : doc.referenceNumber with
    | none => rw [hrn] at h2; exact Option.noConfusion h2
    | some rn =>
      rw [hrn] at h2
      obtain ⟨c, -, hc⟩ := Option.map_eq_some'.mp h2
      rw [← hc]
      exact ⟨rfl, rfl⟩
  refine ⟨by simp only [link, h1, h2], hshape.1, hshape.2, fun docs2 => ?_⟩
  simp only [link, h1, h2]

def w7doc : Doc :=
  { id := "INV-7", category := DocumentCategory.clientInvoice,
    title := "Invoice 7", client := "ACME", amount := 100,
    referenceNumber := some "RN-7" }

def w7po : Doc :=
  { id := "PO-7", category := DocumentCategory.clientPO,
    title := "Supply PO RN-7", client := "ACME", amount := 100,
    referenceNumber := some "PO-REF-7" }

theorem c7_witness : link [] w7doc [w7po] = some ⟨"PO-7", 2, 9/10⟩ :=
  (c7_cascade_precedence [] w7doc [w7po] ⟨"PO-7", 2, 9/10⟩ rfl rfl
    ⟨⟨"PO-7", 4, 55/100⟩, by
      have hpred : decide (w7doc.client = w7po.client ∧
          |w7doc.amount - remainingCapacity [] w7po| * 20 ≤
            |remainingCapacity [] w7po|) = true := by
        rw [decide_eq_true_eq]
        refine ⟨rfl, ?_⟩
        norm_num [remainingCapacity, consumed, w7doc, w7po]
      rw [strategy4, List.find?_cons, hpred]
      rfl⟩).1

/-! ### AlertEngine alert identity (spec sections 3 and 4.5) -/

inductive RuleKind where
  | poUtilization
  | invoicePOMismatch
  | agreementExpiry
  deriving DecidableEq, Repr

/-- Modelled from the spec: the AlertRecord of section 3 as the engine owns
it, with the identity fields `subjectDocumentId` and `ruleKind` and the
`acknowledged` flag (the frontend display copy carries none of these);
timestamps are integers. -/
structure EngineAlert where
  id : String
  title : String
  description : String
  level : AlertLevel
  timestamp : ℤ
  subjectDocumentId : String
  ruleKind : RuleKind
  acknowledged : Bool
  deriving DecidableEq, Repr

/-- The alert is active for the given pair: unacknowledged with exactly that
subject and rule kind. -/
def sameActiveKey (subject : String) (kind : RuleKind) (a : EngineAlert) :
    Bool :=
  decide (a.subjectDocumentId = subject ∧ a.ruleKind = kind ∧
    a.acknowledged = false)

/-- Modelled from the spec: update-in-place of the active alert of a pair —
level, texts and timestamp are refreshed, the alert's identity (id, subject,
rule kind, acknowledged flag) is kept. -/
def updateInPlace (subject : String) (kind : RuleKind) (lv : AlertLevel)
    (t dsc : String) (now : ℤ) : List EngineAlert → List EngineAlert
  | [] => []
  | a :: rest =>
    if sameActiveKey subject kind a then
      { a with
        level := lv, title := t, description := dsc, timestamp := now } :: rest
    else a :: updateInPlace subject kind lv t dsc now rest

/-- Modelled from the spec: one AlertEngine re-evaluation of a rule for a
`(subjectDocumentId, ruleKind)` pair — a map lookup before insert decides
between update-in-place, fresh insert and retraction. -/
def evalRule (subject : String) (kind : RuleKind)
    (outcome : Option (AlertLevel × String × String)) (newId : String)
    (now : ℤ) (store : List EngineAlert) : List EngineAlert :=
  match outcome with
  | none => store.filter (fun a => !sameActiveKey subject kind a)
  | some (lv, t, dsc) =>
    if store.any (sameActiveKey subject kind) then
      updateInPlace subject kind lv t dsc now store
    else
      store ++ [{ id := newId, title := t, description := dsc, level := lv,
                  timestamp := now, subjectDocumentId := subject,
                  ruleKind := kind, acknowledged := false }]

/-- Two alerts are never simultaneously active for the same pair. -/
def ActiveDistinct (a b : EngineAlert) : Prop :=
  a.acknowledged = false → b.acknowledged = false →
    a.subjectDocumentId = b.subjectDocumentId → a.ruleKind = b.ruleKind →
      False

def AtMostOneActive (store : List EngineAlert) : Prop :=
  store.Pairwise ActiveDistinct

theorem updateInPlace_length {subject : String} {kind : RuleKind}
    {lv : AlertLevel} {t dsc : String} {now : ℤ} :
    ∀ store : List EngineAlert,
      (updateInPlace subject kind lv t dsc now store).length = store.length := by
  intro store
  induction store with
  | nil => rfl
  | cons a rest ih =>
    by_cases hk : sameActiveKey subject kind a = true
    · rw [updateInPlace, if_pos hk]
      rfl
    · rw [updateInPlace, if_neg hk]
      simp [ih]

theorem mem_updateInPlace {subject : String} {kind : RuleKind}
    {lv : AlertLevel} {t dsc : String} {now : ℤ} :
    ∀ (store : List EngineAlert) (b : EngineAlert),
      b ∈ updateInPlace subject kind lv t dsc now store →
      ∃ b0, b0 ∈ store ∧ b.acknowledged = b0.acknowledged ∧
        b.subjectDocumentId = b0.subjectDocumentId ∧
        b.ruleKind = b0.ruleKind := by
  intro store
  induction store with
  | nil => intro b hb; exact absurd hb (List.not_mem_nil b)
  | cons a rest ih =>
    intro b hb
    by_cases hk : sameActiveKey subject kind a = true
    · rw [updateInPlace, if_pos hk] at hb
      rcases List.mem_cons.mp hb with rfl | hb
      · exact ⟨a, List.mem_cons_self a rest, rfl, rfl, rfl⟩
      · exact ⟨b, List.mem_cons_of_mem a hb, rfl, rfl, rfl⟩
    · rw [updateInPlace, if_neg hk] at hb
      rcases List.mem_cons.mp hb with rfl | hb
      · exact ⟨b, List.mem_cons_self b rest, rfl, rfl, rfl⟩
      · obtain ⟨b0, h1, h2⟩ := ih b hb
        exact ⟨b0, List.mem_cons_of_mem a h1, h2⟩

theorem updateInPlace_pairwise {subject : String} {kind : RuleKind}
    {lv : AlertLevel} {t dsc : String} {now : ℤ} :
    ∀ store : List EngineAlert, AtMostOneActive store →
      AtMostOneActive (updateInPlace subject kind lv t dsc now store) := by
  intro store
  induction store with
  | nil => intro h; exact h
  | cons a rest ih =>
    intro h
    obtain ⟨ha, hrest⟩ := List.pairwise_cons.mp h
    by_cases hk : sameActiveKey subject kind a = true
    · rw [AtMostOneActive, updateInPlace, if_pos hk]
      exact List.pairwise_cons.mpr ⟨fun b hb => ha b hb, hrest⟩
    · rw [AtMostOneActive, updateInPlace, if_neg hk]
      refine List.pairwise_cons.mpr ⟨?_, ih hrest⟩
      intro b hb h1 h2 h3 h4
      obtain ⟨b0, hb0, hack, hsub, hrule⟩ := mem_updateInPlace rest b hb
      exact ha b0 hb0 h1 (hack ▸ h2) (hsub ▸ h3) (hrule ▸ h4)

/-- C8: starting from a store with at most one active alert per pair,
re-evaluating a rule preserves the invariant; if the pair already has an
active alert and the rule still fires, the store size is unchanged (the record
is updated in place, no second record inserted), and when the rule no longer
holds the pair's active alert is retracted. -/
theorem c8_at_most_one_active (subject : String) (kind : RuleKind)
    (outcome : Option (AlertLevel × String × String)) (newId : String)
    (now : ℤ) (store : List EngineAlert) (h : AtMostOneActive store) :
    AtMostOneActive (evalRule subject kind outcome newId now store) ∧
    (store.any (sameActiveKey subject kind) = true →
      ∀ lv t dsc,
        (evalRule subject kind (some (lv, t, dsc)) newId now store).length =
          store.length) ∧
    (evalRule subject kind none newId now store).all
      (fun a => !sameActiveKey subject kind a) = true := by
  refine ⟨?_, ?_, ?_⟩
  · cases outcome with
    | none =>
      rw [evalRule]
      exact List.Pairwise.sublist (List.filter_sublist store) h
    | some o =>
      obtain ⟨lv, t, dsc⟩ := o
      rw [evalRule]
      by_cases hany : store.any (sameActiveKey subject kind) = true
      · rw [if_pos hany]
        exact updateInPlace_pairwise store h
      · rw [if_neg hany]
        rw [AtMostOneActive, List.pairwise_append]
        refine ⟨h, List.pairwise_singleton _ _, ?_⟩
        intro a ha b hb h1 h2 h3 h4
        have hb1 : b =
            { id := newId, title := t, description := dsc, level := lv,
              timestamp := now, subjectDocumentId := subject,
              ruleKind := kind, acknowledged := false } := by
          simpa using hb
        apply hany
        rw [List.any_eq_true]
        refine ⟨a, ha, ?_⟩
        rw [sameActiveKey, decide_eq_true_eq]
        subst hb1
        exact ⟨h3, h4, h1⟩
  · intro hany lv t dsc
    rw [evalRule, if_pos hany]
    exact updateInPlace_length store
  · rw [evalRule, List.all_eq_true]
    intro a ha
    exact (List.mem_filter.mp ha).2

def a1 : EngineAlert :=
  { id := "AL-1", title := "PO Cap Utilization at 85%",
    description := "PO DOC-1 nearing cap", level := AlertLevel.warning,
    timestamp := 3, subjectDocumentId := "DOC-1",
    ruleKind := RuleKind.poUtilization, acknowledged := false }

theorem c8_witness :
    AtMostOneActive (evalRule "DOC-1" RuleKind.poUtilization
      (some (AlertLevel.critical, "PO over cap", "PO DOC-1 exceeded its cap"))
      "AL-2" 7 [a1]) ∧
    (evalRule "DOC-1" RuleKind.poUtilization
      (some (AlertLevel.critical, "PO over cap", "PO DOC-1 exceeded its cap"))
      "AL-2" 7 [a1]).length = [a1].length :=
  ⟨(c8_at_most_one_active "DOC-1" RuleKind.poUtilization
      (some (AlertLevel.critical, "PO over cap", "PO DOC-1 exceeded its cap"))
      "AL-2" 7 [a1] (by simp [AtMostOneActive])).1,
   (c8_at_most_one_active "DOC-1" RuleKind.poUtilization
      (some (AlertLevel.critical, "PO over cap", "PO DOC-1 exceeded its cap"))
      "AL-2" 7 [a1] (by simp [AtMostOneActive])).2.1 (by decide) _ _ _⟩

end Core

end DMS
